import Mathlib

/-!
Shallow embedding of the `observe-rs` reconciliation engine
(`src/mrpack.rs`, `src/errors.rs`, `src/mod_manager.rs`).

The filesystem is modeled as a finite association list from path strings to
byte lists, together with a list of known directories, two fault-injection
sets (paths on which `File::create` fails, and paths on which
`read_to_end` fails after a successful `File::open`), and an event trace
recording every create / write / delete performed.  The network is a
function from URL to a `SendResult`: either a transport error at
`send()`, or a response carrying an HTTP status code, the byte prefix of
the body the stream delivers, and a flag saying whether the body stream
ends in a read error instead of EOF.  (reqwest's blocking `send()` does
not fail on non-2xx statuses, and the source never consults
`response.status()`, so the embedded fetch carries the status but never
branches on it — exactly like the source.)  The SHA-1 and SHA-512
digests are external crates, so they are passed in as abstract digest
functions `List Nat → List Nat`.

`read_to_end(..).unwrap()` in `file_is_valid` is modeled at its call
site in `sync` as the distinguished terminal outcome `Outcome.abort`
(a Rust panic: no `FileError` value is ever produced).  Progress bars
and console printing are purely observational and are omitted.
-/

namespace ObserveRs

/-- `Requirement` from src/mrpack.rs. -/
inductive Requirement where
  | Required : Requirement
  | Optional : Requirement
  | Unsupported : Requirement
deriving DecidableEq, Repr

/-- `Environment` from src/mrpack.rs. -/
structure Environment where
  client : Requirement
  server : Requirement
deriving DecidableEq, Repr

/-- `FileHashes` from src/mrpack.rs: `sha1` is 20 bytes, `sha512` is 64
bytes on the Rust side; the embedding uses byte lists (the lengths play
no role in the reconciliation logic).  `other_hashes` is unused by the
engine and omitted. -/
structure FileHashes where
  sha1 : List Nat
  sha512 : List Nat
deriving DecidableEq, Repr

/-- `MRFile` from src/mrpack.rs.  Download URLs are modeled as strings. -/
structure MRFile where
  path : String
  hashes : FileHashes
  env : Option Environment
  downloads : List String
  file_size : Nat
deriving DecidableEq, Repr

/-- `MRIndex` from src/mrpack.rs (the `dependencies` map is not consumed
by the engine and is omitted). -/
structure MRIndex where
  game : String
  format_version : Nat
  version_id : String
  name : String
  files : List MRFile
deriving DecidableEq, Repr

/-- `FileError` from src/errors.rs. -/
inductive FileError where
  | IOError : FileError
  | AllDownloadsFailed : FileError
  | DownloadFailed : FileError
  | DeleteFailed : FileError
deriving DecidableEq, Repr

/-- Result of a fallible engine step.  `ok` / `err` mirror Rust's
`Result<_, FileError>`; `abort` marks a Rust panic (the
`read_to_end(..).unwrap()` in `file_is_valid`), which never yields a
`FileError` to the caller. -/
inductive Outcome (α : Type) where
  | ok : α → Outcome α
  | err : FileError → Outcome α
  | abort : Outcome α
deriving DecidableEq, Repr

/-- One observable filesystem mutation, recorded in the trace:
`File::create` (which creates or truncates), a `write_all`, and a
`remove_file` / `remove_dir_all`. -/
inductive Ev where
  | create : String → Ev
  | write : String → List Nat → Ev
  | delete : String → Ev
deriving DecidableEq, Repr

/-- The modeled filesystem.  `files` maps a path to its byte content
(first binding wins), `dirs` is the set of directories known to exist,
`failCreate` / `failRead` are fault-injection sets (paths where
`File::create` resp. `read_to_end` fail with an I/O error), and
`events` is the mutation trace, most recent first. -/
structure FS where
  files : List (String × List Nat)
  dirs : List String
  failCreate : List String
  failRead : List String
  events : List Ev
deriving DecidableEq, Repr

/-- Content of the file at `p`, `none` when `File::open` would fail
because no file exists there. -/
def FS.lookup (fs : FS) (p : String) : Option (List Nat) :=
  (fs.files.find? (fun pc => pc.1 == p)).map (fun pc => pc.2)

/-- `File::create(p)`: fails on the injected-fault set, otherwise
creates or truncates the file at `p` to empty content. -/
def FS.createFile (fs : FS) (p : String) : Option FS :=
  if fs.failCreate.contains p then none
  else some { fs with
    files := (p, []) :: fs.files.filter (fun pc => pc.1 != p),
    events := Ev.create p :: fs.events }

/-- `write_all`: appends `bytes` to the (already created) file at `p`. -/
def FS.writeAll (fs : FS) (p : String) (bytes : List Nat) : FS :=
  { fs with
    files := (p, (fs.lookup p).getD [] ++ bytes) :: fs.files.filter (fun pc => pc.1 != p),
    events := Ev.write p bytes :: fs.events }

/-- `remove_file(p)`: fails when no file exists at `p`. -/
def FS.removeFile (fs : FS) (p : String) : Option FS :=
  if (fs.lookup p).isSome then
    some { fs with
      files := fs.files.filter (fun pc => pc.1 != p),
      events := Ev.delete p :: fs.events }
  else none

/-- `charsStarts s pre = true` iff `pre` is a prefix of `s`. -/
def charsStarts : List Char → List Char → Bool
  | _, [] => true
  | [], _ :: _ => false
  | c :: cs, d :: ds => c == d && charsStarts cs ds

/-- `p` is yielded by `WalkDir::new(dir)`: it is `dir` itself or lies
strictly below it. -/
def isUnder (dir p : String) : Bool :=
  p == dir || charsStarts p.data (dir.data ++ ['/'])

/-- The regular files yielded by
`WalkDir::new(dir) ... filter(is_file)`. -/
def FS.walkFiles (fs : FS) (dir : String) : List (String × List Nat) :=
  fs.files.filter (fun pc => isUnder dir pc.1)

/-- `remove_dir_all(p)`: removes the directory and every file below it. -/
def FS.removeDirAll (fs : FS) (p : String) : FS :=
  { fs with
    files := fs.files.filter (fun pc => !isUnder p pc.1),
    dirs := fs.dirs.filter (fun d => d != p),
    events := Ev.delete p :: fs.events }

/-- `Path::new(p).parent()`: `none` for the empty path, `some ""` when
`p` has a single component, otherwise `p` with its last `/`-separated
component removed. -/
def parentPath (p : String) : Option String :=
  if p.data = [] then none
  else
    match (p.data.reverse).dropWhile (fun c => c != '/') with
    | [] => some ""
    | _ :: t => some (String.mk t.reverse)

/-- The `if let Some(parent) = path.parent() { if !parent.exists() {
create_dir_all(parent)?; } }` preamble shared by `download_file` and the
override loop of `sync`.  `create_dir_all` on the modeled map-based
filesystem always succeeds (no claim concerns directory-creation
failure). -/
def ensureParent (fs : FS) (p : String) : FS :=
  match parentPath p with
  | none => fs
  | some d => if fs.dirs.contains d then fs else { fs with dirs := d :: fs.dirs }

/-- Result of `client.get(url).send()`: a transport error, or a response
with an HTTP `status`, the bytes `delivered` by the body stream, and
`readFails = true` when the stream ends in a read error rather than
EOF. -/
inductive SendResult where
  | transportErr : SendResult
  | response : Nat → List Nat → Bool → SendResult
deriving DecidableEq, Repr

/-- The engine, `ModManager` from src/mod_manager.rs.  The `reqwest`
client is externalized as the `net` argument of the operations below;
the override map is modeled as an association list. -/
structure ModManager where
  files : List MRFile
  overrides : List (String × List Nat)
  prune : Bool
deriving DecidableEq, Repr

/-- `ModManager::new`: keeps exactly the declared files whose `env` is
absent or whose `server` requirement is not `Unsupported`
(`f.env.as_ref().map_or(true, |env| env.server != Requirement::Unsupported)`). -/
def ModManager.new (index : MRIndex) (overrides : List (String × List Nat))
    (prune : Bool) : ModManager :=
  { files := index.files.filter (fun f =>
      match f.env with
      | none => true
      | some env => env.server != Requirement.Unsupported),
    overrides := overrides,
    prune := prune }

/-- `PRUNE_DIRECTORIES_INDEX` from src/mod_manager.rs. -/
def PRUNE_DIRECTORIES_INDEX : List String := ["mods", "resourcepacks"]

/-- `PRUNE_DIRECTORIES_OVERRIDES` from src/mod_manager.rs. -/
def PRUNE_DIRECTORIES_OVERRIDES : List String := ["config"]

/-- `ModManager::check_sha1`, with the `Sha1::digest` function of the
external `sha1` crate abstracted as `sha1D`.  The comparison is
byte-for-byte equality of the digest with the expected hash. -/
def check_sha1 (sha1D : List Nat → List Nat) (data expected : List Nat) : Bool :=
  sha1D data == expected

/-- `ModManager::check_sha512`, with `Sha512::digest` abstracted. -/
def check_sha512 (sha512D : List Nat → List Nat) (data expected : List Nat) : Bool :=
  sha512D data == expected

/-- `ModManager::file_is_valid` on the already-read buffer: both digest
checks must pass.  (The `read_to_end(..).unwrap()` that produces the
buffer — and panics on a read error — is modeled at the call site in
`sync`.) -/
def file_is_valid (sha1D sha512D : List Nat → List Nat) (data : List Nat)
    (h : FileHashes) : Bool :=
  check_sha1 sha1D data h.sha1 && check_sha512 sha512D data h.sha512

/-- `ModManager::try_download_file`: issue the GET (transport error ⇒
`DownloadFailed` via `From<reqwest::Error>`), `File::create` the
destination (I/O failure ⇒ `IOError`), stream the body into it in
chunks (modeled as one append of the delivered bytes), and fail with
`IOError` when the stream ends in a read error.  The HTTP status is
never inspected. -/
def try_download_file (net : String → SendResult) (fs : FS) (url path : String) :
    FS × Outcome Unit :=
  match net url with
  | SendResult.transportErr => (fs, Outcome.err FileError.DownloadFailed)
  | SendResult.response _status delivered readFails =>
    match fs.createFile path with
    | none => (fs, Outcome.err FileError.IOError)
    | some fs1 =>
      let fs2 := fs1.writeAll path delivered
      if readFails then (fs2, Outcome.err FileError.IOError) else (fs2, Outcome.ok ())

/-- The `for url in &file.downloads` loop of `ModManager::download_file`:
first success returns; every failure falls through to the next URL; an
exhausted list yields `AllDownloadsFailed`. -/
def downloadLoop (net : String → SendResult) (fs : FS) (urls : List String)
    (path : String) : FS × Outcome Unit :=
  match urls with
  | [] => (fs, Outcome.err FileError.AllDownloadsFailed)
  | u :: rest =>
    match try_download_file net fs u path with
    | (fs1, Outcome.ok _) => (fs1, Outcome.ok ())
    | (fs1, _) => downloadLoop net fs1 rest path

/-- `ModManager::download_file`: ensure the parent directory exists,
then run the mirror loop. -/
def download_file (net : String → SendResult) (fs : FS) (f : MRFile) :
    FS × Outcome Unit :=
  downloadLoop net (ensureParent fs f.path) f.downloads f.path

/-- One iteration of the `for file in &self.files` loop of
`ModManager::sync`: `File::open` failure (file absent) or an invalid
buffer triggers `download_file`; a read failure on an opened file is the
`unwrap()` panic, `Outcome.abort`. -/
def syncFile (sha1D sha512D : List Nat → List Nat) (net : String → SendResult)
    (fs : FS) (f : MRFile) : FS × Outcome Unit :=
  match fs.lookup f.path with
  | some content =>
    if fs.failRead.contains f.path then (fs, Outcome.abort)
    else if file_is_valid sha1D sha512D content f.hashes then (fs, Outcome.ok ())
    else download_file net fs f
  | none => download_file net fs f

/-- The declared-files phase of `ModManager::sync`: each entry in order,
stopping at the first error (`self.download_file(file, &m)?`) or panic. -/
def syncFiles (sha1D sha512D : List Nat → List Nat) (net : String → SendResult)
    (fs : FS) (files : List MRFile) : FS × Outcome Unit :=
  match files with
  | [] => (fs, Outcome.ok ())
  | f :: rest =>
    match syncFile sha1D sha512D net fs f with
    | (fs1, Outcome.ok _) => syncFiles sha1D sha512D net fs1 rest
    | r => r

/-- The override phase of `ModManager::sync`: for every override entry,
ensure the parent directory, `File::create` (I/O failure is fatal), and
write the verbatim content. -/
def syncOverrides (fs : FS) (ovs : List (String × List Nat)) : FS × Outcome Unit :=
  match ovs with
  | [] => (fs, Outcome.ok ())
  | (p, c) :: rest =>
    let fs0 := ensureParent fs p
    match fs0.createFile p with
    | none => (fs0, Outcome.err FileError.IOError)
    | some fs1 => syncOverrides (fs1.writeAll p c) rest

/-- `self.files.iter().any(|f| f.path == file.path())`. -/
def isInIndex (files : List MRFile) (p : String) : Bool :=
  files.any (fun f => f.path == p)

/-- `self.overrides.iter().any(|(path, _)| path == file.path())`. -/
def isInOverrides (ovs : List (String × List Nat)) (p : String) : Bool :=
  ovs.any (fun pc => pc.1 == p)

/-- `ModManager::delete_file`: `remove_dir_all` on a directory,
`remove_file` otherwise (failure ⇒ `DeleteFailed`). -/
def delete_file (fs : FS) (p : String) : FS × Outcome Unit :=
  if fs.dirs.contains p then (fs.removeDirAll p, Outcome.ok ())
  else
    match fs.removeFile p with
    | some fs1 => (fs1, Outcome.ok ())
    | none => (fs, Outcome.err FileError.DeleteFailed)

/-- The inner prune loop over the files walked below one root: delete
each file whose path is not in the membership set; a deletion error
propagates (`self.delete_file(&file.path())?`). -/
def pruneWalk (inSet : String → Bool) (fs : FS) (walked : List (String × List Nat)) :
    FS × Outcome Unit :=
  match walked with
  | [] => (fs, Outcome.ok ())
  | pc :: rest =>
    if inSet pc.1 then pruneWalk inSet fs rest
    else
      match delete_file fs pc.1 with
      | (fs1, Outcome.ok _) => pruneWalk inSet fs1 rest
      | r => r

/-- The outer prune loop over a fixed list of managed roots. -/
def pruneDirs (inSet : String → Bool) (fs : FS) (dirs : List String) :
    FS × Outcome Unit :=
  match dirs with
  | [] => (fs, Outcome.ok ())
  | d :: rest =>
    match pruneWalk inSet fs (fs.walkFiles d) with
    | (fs1, Outcome.ok _) => pruneDirs inSet fs1 rest
    | r => r

/-- The prune pass of `ModManager::sync`: index-managed roots checked
against the filtered declared-file set, then override-managed roots
checked against the override map. -/
def prunePass (mgr : ModManager) (fs : FS) : FS × Outcome Unit :=
  match pruneDirs (isInIndex mgr.files) fs PRUNE_DIRECTORIES_INDEX with
  | (fs1, Outcome.ok _) =>
    pruneDirs (isInOverrides mgr.overrides) fs1 PRUNE_DIRECTORIES_OVERRIDES
  | r => r

/-- `ModManager::sync`: reconcile every declared file, then write every
override, then (in prune mode) run the prune pass.  Each phase runs only
if the previous one returned `Ok`. -/
def ModManager.sync (mgr : ModManager) (sha1D sha512D : List Nat → List Nat)
    (net : String → SendResult) (fs : FS) : FS × Outcome Unit :=
  match syncFiles sha1D sha512D net fs mgr.files with
  | (fs1, Outcome.ok _) =>
    match syncOverrides fs1 mgr.overrides with
    | (fs2, Outcome.ok _) =>
      if mgr.prune then prunePass mgr fs2 else (fs2, Outcome.ok ())
    | r => r
  | r => r

/-- A single mirror attempt is doomed: the send transports-errors, or the
destination path is in the create-failure set, or the body stream ends in
a read error.  `try_download_file` fails exactly on these. -/
def tryFails (net : String → SendResult) (fc : List String) (u path : String) : Bool :=
  match net u with
  | SendResult.transportErr => true
  | SendResult.response _ _ readFails => fc.contains path || readFails

/-- Well-formedness of the modeled filesystem: no path holds both a
regular file and a directory. -/
def FilesNotDirs (fs : FS) : Prop :=
  ∀ pc ∈ fs.files, fs.dirs.contains pc.1 = false

end ObserveRs

namespace ObserveRs

/-- The empty filesystem: no files, no directories, no injected faults,
empty trace. -/
def emptyFS : FS := ⟨[], [], [], [], []⟩

/-- A declared file with fixed small hashes, no environment and the
given mirror list; used to build concrete scenarios. -/
def mf (p : String) (urls : List String) : MRFile :=
  ⟨p, ⟨[1], [2]⟩, none, urls, 0⟩

/-! ### Association-list and filesystem-primitive lemmas -/

theorem find?_filter_key (l : List (String × List Nat)) (p q : String) (h : p ≠ q) :
    (l.filter (fun pc => pc.1 != q)).find? (fun pc => pc.1 == p)
      = l.find? (fun pc => pc.1 == p) := by
  induction l with
  | nil => rfl
  | cons a t ih =>
    simp only [List.filter_cons]
    by_cases hq : a.1 = q
    · have h1 : (a.1 != q) = false := by simp [hq]
      have h2 : (a.1 == p) = false := by simp [hq, Ne.symm h]
      simp [h1, h2, List.find?_cons_of_neg, ih]
    · have h1 : (a.1 != q) = true := by simp [hq]
      by_cases hp : a.1 = p
      · have h2 : (a.1 == p) = true := by simp [hp]
        simp [h1, h2, List.find?_cons_of_pos]
      · have h2 : (a.1 == p) = false := by simp [hp]
        simp [h1, h2, List.find?_cons_of_neg, ih]

theorem lookup_writeAll_self (fs : FS) (p : String) (bytes : List Nat) :
    (fs.writeAll p bytes).lookup p = some ((fs.lookup p).getD [] ++ bytes) := by
  simp [FS.writeAll, FS.lookup]

theorem lookup_writeAll_ne (fs : FS) (p q : String) (bytes : List Nat) (h : q ≠ p) :
    (fs.writeAll p bytes).lookup q = fs.lookup q := by
  simp [FS.writeAll, FS.lookup, h, Ne.symm h, find?_filter_key _ q p h]

theorem writeAll_fields (fs : FS) (p : String) (bytes : List Nat) :
    (fs.writeAll p bytes).dirs = fs.dirs ∧
    (fs.writeAll p bytes).failCreate = fs.failCreate ∧
    (fs.writeAll p bytes).failRead = fs.failRead ∧
    (fs.writeAll p bytes).events = Ev.write p bytes :: fs.events := by
  simp [FS.writeAll]

theorem createFile_spec (fs fs1 : FS) (p : String) (h : fs.createFile p = some fs1) :
    fs1.lookup p = some [] ∧ (∀ q, q ≠ p → fs1.lookup q = fs.lookup q) ∧
    fs1.dirs = fs.dirs ∧ fs1.failCreate = fs.failCreate ∧ fs1.failRead = fs.failRead ∧
    fs1.events = Ev.create p :: fs.events := by
  unfold FS.createFile at h
  split at h
  · cases h
  · injection h with h2
    subst h2
    refine ⟨by simp [FS.lookup], fun q hq => ?_, rfl, rfl, rfl, rfl⟩
    simp [FS.lookup, Ne.symm hq, find?_filter_key _ q p hq]

theorem createFile_none_iff (fs : FS) (p : String) :
    fs.createFile p = none ↔ fs.failCreate.contains p = true := by
  unfold FS.createFile
  by_cases hc : fs.failCreate.contains p <;> simp [hc]

theorem removeFile_spec (fs fs1 : FS) (p : String) (h : fs.removeFile p = some fs1) :
    (∀ q, q ≠ p → fs1.lookup q = fs.lookup q) ∧ fs1.lookup p = none ∧
    fs1.dirs = fs.dirs ∧ fs1.failCreate = fs.failCreate ∧ fs1.failRead = fs.failRead ∧
    fs1.events = Ev.delete p :: fs.events ∧ (∀ pc ∈ fs1.files, pc ∈ fs.files) := by
  unfold FS.removeFile at h
  split at h
  · injection h with h2
    subst h2
    refine ⟨fun q hq => by simp [FS.lookup, find?_filter_key _ q p hq], ?_, rfl, rfl, rfl, rfl,
      fun pc hpc => List.mem_of_mem_filter hpc⟩
    have hn : (fs.files.filter (fun pc => pc.1 != p)).find? (fun pc => pc.1 == p) = none := by
      rw [List.find?_eq_none]
      intro x hx
      have := List.of_mem_filter hx
      simpa using this
    simp [FS.lookup, hn]
  · cases h

theorem ensureParent_fields (fs : FS) (p : String) :
    (ensureParent fs p).files = fs.files ∧ (ensureParent fs p).failCreate = fs.failCreate ∧
    (ensureParent fs p).failRead = fs.failRead ∧ (ensureParent fs p).events = fs.events := by
  unfold ensureParent
  cases parentPath p with
  | none => exact ⟨rfl, rfl, rfl, rfl⟩
  | some d => by_cases hd : d ∈ fs.dirs <;> simp [hd]

theorem lookup_congr_files (fs1 fs2 : FS) (p : String) (h : fs1.files = fs2.files) :
    fs1.lookup p = fs2.lookup p := by
  simp [FS.lookup, h]

theorem mem_of_lookup_eq_some (fs : FS) (p : String) (c : List Nat)
    (h : fs.lookup p = some c) : (p, c) ∈ fs.files := by
  unfold FS.lookup at h
  cases hf : fs.files.find? (fun pc => pc.1 == p) with
  | none => simp [hf] at h
  | some x =>
    have hm := List.mem_of_find?_eq_some hf
    have hx := List.find?_some hf
    simp only [beq_iff_eq] at hx
    simp only [hf, Option.map_some, Option.some.injEq] at h
    have : x = (p, c) := by
      cases x
      simp_all
    exact this ▸ hm

/-! ### Mirror-fetch lemmas -/

theorem try_success (net : String → SendResult) (fs : FS) (u path : String)
    (st : Nat) (deliv : List Nat)
    (hn : net u = SendResult.response st deliv false)
    (hc : fs.failCreate.contains path = false) :
    ∃ fs2, try_download_file net fs u path = (fs2, Outcome.ok ()) ∧
      fs2.lookup path = some deliv ∧ (∀ q, q ≠ path → fs2.lookup q = fs.lookup q) ∧
      fs2.failCreate = fs.failCreate ∧ fs2.failRead = fs.failRead ∧
      fs2.dirs = fs.dirs ∧
      fs2.events = Ev.write path deliv :: Ev.create path :: fs.events := by
  cases hcf : fs.createFile path with
  | none =>
    rw [createFile_none_iff] at hcf
    rw [hcf] at hc
    cases hc
  | some fs1 =>
    obtain ⟨h1, h2, h3, h4, h5, h6⟩ := createFile_spec fs fs1 path hcf
    refine ⟨fs1.writeAll path deliv, ?_, ?_, ?_, ?_, ?_, ?_, ?_⟩
    · unfold try_download_file
      rw [hn, hcf]
      rfl
    · rw [lookup_writeAll_self, h1]
      simp
    · intro q hq
      rw [lookup_writeAll_ne _ _ _ _ hq, h2 q hq]
    · exact (writeAll_fields _ _ _).2.1.trans h4
    · exact (writeAll_fields _ _ _).2.2.1.trans h5
    · exact (writeAll_fields _ _ _).1.trans h3
    · rw [(writeAll_fields _ _ _).2.2.2, h6]

theorem try_fail (net : String → SendResult) (fs : FS) (u path : String)
    (h : tryFails net fs.failCreate u path = true) :
    ∃ fs1 e, try_download_file net fs u path = (fs1, Outcome.err e) ∧
      fs1.failCreate = fs.failCreate ∧ fs1.failRead = fs.failRead ∧
      (fs1.lookup path = fs.lookup path ∨
        ∃ st deliv, net u = SendResult.response st deliv true ∧
          fs1.lookup path = some deliv) ∧
      (∀ p', Ev.delete p' ∈ fs1.events → Ev.delete p' ∈ fs.events) := by
  unfold tryFails at h
  unfold try_download_file
  cases hn : net u with
  | transportErr =>
    exact ⟨fs, FileError.DownloadFailed, rfl, rfl, rfl, Or.inl rfl, fun _ hp => hp⟩
  | response st deliv readFails =>
    rw [hn] at h
    by_cases hfc : fs.failCreate.contains path
    · have hnone : fs.createFile path = none := (createFile_none_iff fs path).mpr hfc
      rw [hnone]
      exact ⟨fs, FileError.IOError, rfl, rfl, rfl, Or.inl rfl, fun _ hp => hp⟩
    · have h' : path ∈ fs.failCreate ∨ readFails = true := by simpa using h
      have hrf : readFails = true := h'.resolve_left (by simpa using hfc)
      cases hcf : fs.createFile path with
      | none =>
        rw [createFile_none_iff] at hcf
        exact absurd hcf hfc
      | some fs1 =>
        obtain ⟨h1, h2, h3, h4, h5, h6⟩ := createFile_spec fs fs1 path hcf
        rw [hrf]
        refine ⟨fs1.writeAll path deliv, FileError.IOError, rfl,
          (writeAll_fields _ _ _).2.1.trans h4,
          (writeAll_fields _ _ _).2.2.1.trans h5,
          Or.inr ⟨st, deliv, rfl, by rw [lookup_writeAll_self, h1]; simp⟩, ?_⟩
        intro p' hp'
        rw [(writeAll_fields _ _ _).2.2.2, h6] at hp'
        rcases List.mem_cons.mp hp' with h2' | h2'
        · cases h2'
        · rcases List.mem_cons.mp h2' with h3' | h3'
          · cases h3'
          · exact h3'

theorem downloadLoop_swallow (net : String → SendResult) (fs fs1 : FS)
    (u path : String) (rest : List String) (e : FileError)
    (h : try_download_file net fs u path = (fs1, Outcome.err e)) :
    downloadLoop net fs (u :: rest) path = downloadLoop net fs1 rest path := by
  conv_lhs => rw [downloadLoop]
  rw [h]

theorem downloadLoop_first_ok (net : String → SendResult) (fs fs1 : FS)
    (u path : String) (rest : List String)
    (h : try_download_file net fs u path = (fs1, Outcome.ok ())) :
    downloadLoop net fs (u :: rest) path = (fs1, Outcome.ok ()) := by
  rw [downloadLoop, h]

theorem downloadLoop_exhaust (net : String → SendResult) (path : String) :
    ∀ (urls : List String) (fs : FS),
      (∀ u ∈ urls, tryFails net fs.failCreate u path = true) →
      (downloadLoop net fs urls path).snd = Outcome.err FileError.AllDownloadsFailed ∧
      (downloadLoop net fs urls path).fst.failCreate = fs.failCreate ∧
      ((downloadLoop net fs urls path).fst.lookup path = fs.lookup path ∨
        ∃ u ∈ urls, ∃ st deliv, net u = SendResult.response st deliv true ∧
          (downloadLoop net fs urls path).fst.lookup path = some deliv) ∧
      (∀ p', Ev.delete p' ∈ (downloadLoop net fs urls path).fst.events →
        Ev.delete p' ∈ fs.events)
  | [], fs, _ => ⟨rfl, rfl, Or.inl rfl, fun _ hp => hp⟩
  | u :: rest, fs, h => by
      obtain ⟨fs1, e, he, hfc, hfr, hlk, hev⟩ :=
        try_fail net fs u path (h u (List.mem_cons_self u rest))
      have hrest : ∀ v ∈ rest, tryFails net fs1.failCreate v path = true := by
        intro v hv
        rw [hfc]
        exact h v (List.mem_cons_of_mem u hv)
      obtain ⟨ih1, ih2, ih3, ih4⟩ := downloadLoop_exhaust net path rest fs1 hrest
      have hred : downloadLoop net fs (u :: rest) path = downloadLoop net fs1 rest path :=
        downloadLoop_swallow net fs fs1 u path rest e he
      rw [hred]
      refine ⟨ih1, ih2.trans hfc, ?_, fun p' hp' => hev p' (ih4 p' hp')⟩
      rcases ih3 with ihl | ⟨v, hv, st, deliv, hn, hl⟩
      · rcases hlk with hl1 | ⟨st, deliv, hn, hl1⟩
        · exact Or.inl (ihl.trans hl1)
        · exact Or.inr ⟨u, List.mem_cons_self u rest, st, deliv, hn, ihl.trans hl1⟩
      · exact Or.inr ⟨v, List.mem_cons_of_mem u hv, st, deliv, hn, hl⟩

theorem syncFiles_stop (sha1D sha512D : List Nat → List Nat) (net : String → SendResult)
    (fs fs1 : FS) (f : MRFile) (rest : List MRFile) (r : Outcome Unit)
    (h : syncFile sha1D sha512D net fs f = (fs1, r)) (hr : ∀ a, r ≠ Outcome.ok a) :
    syncFiles sha1D sha512D net fs (f :: rest) = (fs1, r) := by
  conv_lhs => rw [syncFiles]
  rw [h]
  cases r with
  | ok a => exact absurd rfl (hr a)
  | err e => rfl
  | abort => rfl

theorem syncFiles_step_ok (sha1D sha512D : List Nat → List Nat) (net : String → SendResult)
    (fs fs1 : FS) (f : MRFile) (rest : List MRFile)
    (h : syncFile sha1D sha512D net fs f = (fs1, Outcome.ok ())) :
    syncFiles sha1D sha512D net fs (f :: rest) = syncFiles sha1D sha512D net fs1 rest := by
  conv_lhs => rw [syncFiles]
  rw [h]

theorem sync_stops_at_files (mgr : ModManager) (sha1D sha512D : List Nat → List Nat)
    (net : String → SendResult) (fs fs1 : FS) (r : Outcome Unit)
    (h : syncFiles sha1D sha512D net fs mgr.files = (fs1, r))
    (hr : ∀ a, r ≠ Outcome.ok a) :
    mgr.sync sha1D sha512D net fs = (fs1, r) := by
  unfold ModManager.sync
  rw [h]
  cases r with
  | ok a => exact absurd rfl (hr a)
  | err e => rfl
  | abort => rfl

theorem syncFiles_all_valid (sha1D sha512D : List Nat → List Nat)
    (net : String → SendResult) :
    ∀ (files : List MRFile) (fs : FS),
      (∀ f ∈ files, ∃ c, fs.lookup f.path = some c ∧
        fs.failRead.contains f.path = false ∧
        file_is_valid sha1D sha512D c f.hashes = true) →
      syncFiles sha1D sha512D net fs files = (fs, Outcome.ok ())
  | [], _, _ => rfl
  | f :: rest, fs, h => by
    obtain ⟨c, hc, hfr, hv⟩ := h f (List.mem_cons_self f rest)
    have hstep : syncFile sha1D sha512D net fs f = (fs, Outcome.ok ()) := by
      have hfr' : f.path ∉ fs.failRead := by simpa using hfr
      unfold syncFile
      rw [hc]
      simp [hfr', hv]
    rw [syncFiles_step_ok sha1D sha512D net fs fs f rest hstep]
    exact syncFiles_all_valid sha1D sha512D net rest fs
      (fun g hg => h g (List.mem_cons_of_mem f hg))

theorem syncOverrides_rewrite :
    ∀ (ovs : List (String × List Nat)) (fs : FS),
      (∀ pc ∈ ovs, fs.lookup pc.1 = some pc.2 ∧ fs.failCreate.contains pc.1 = false) →
      (syncOverrides fs ovs).snd = Outcome.ok () ∧
      (∀ q, (syncOverrides fs ovs).fst.lookup q = fs.lookup q) ∧
      (∀ p', Ev.delete p' ∈ (syncOverrides fs ovs).fst.events → Ev.delete p' ∈ fs.events) ∧
      (syncOverrides fs ovs).fst.failCreate = fs.failCreate ∧
      (syncOverrides fs ovs).fst.failRead = fs.failRead
  | [], fs, _ => ⟨rfl, fun _ => rfl, fun _ hp => hp, rfl, rfl⟩
  | (p, c) :: rest, fs, h => by
    obtain ⟨hlk, hfc⟩ := h (p, c) (List.mem_cons_self _ _)
    obtain ⟨hef, hec, her, hee⟩ := ensureParent_fields fs p
    have hlk0 : (ensureParent fs p).lookup p = some c :=
      (lookup_congr_files _ fs p hef).trans hlk
    have hfc0 : (ensureParent fs p).failCreate.contains p = false := by
      rw [hec]; exact hfc
    cases hcf : (ensureParent fs p).createFile p with
    | none =>
      rw [createFile_none_iff] at hcf
      rw [hfc0] at hcf
      cases hcf
    | some fs1 =>
      obtain ⟨h1, h2, h3, h4, h5, h6⟩ := createFile_spec _ fs1 p hcf
      have hred : syncOverrides fs ((p, c) :: rest) = syncOverrides (fs1.writeAll p c) rest := by
        conv_lhs => rw [syncOverrides]
        rw [hcf]
      have hall : ∀ q, (fs1.writeAll p c).lookup q = fs.lookup q := by
        intro q
        by_cases hq : q = p
        · subst hq
          rw [lookup_writeAll_self, h1, hlk]
          simp
        · rw [lookup_writeAll_ne _ _ _ _ hq, h2 q hq,
            lookup_congr_files _ fs q hef]
      have hfc2 : (fs1.writeAll p c).failCreate = fs.failCreate := by
        rw [(writeAll_fields _ _ _).2.1, h4, hec]
      have hfr2 : (fs1.writeAll p c).failRead = fs.failRead := by
        rw [(writeAll_fields _ _ _).2.2.1, h5, her]
      have hev2 : (fs1.writeAll p c).events = Ev.write p c :: Ev.create p :: fs.events := by
        rw [(writeAll_fields _ _ _).2.2.2, h6, hee]
      have hrest : ∀ pc ∈ rest, (fs1.writeAll p c).lookup pc.1 = some pc.2 ∧
          (fs1.writeAll p c).failCreate.contains pc.1 = false := by
        intro pc hpc
        obtain ⟨ha, hb⟩ := h pc (List.mem_cons_of_mem _ hpc)
        exact ⟨(hall pc.1).trans ha, by rw [hfc2]; exact hb⟩
      obtain ⟨ih1, ih2, ih3, ih4, ih5⟩ := syncOverrides_rewrite rest (fs1.writeAll p c) hrest
      rw [hred]
      refine ⟨ih1, fun q => (ih2 q).trans (hall q), ?_, ih4.trans hfc2, ih5.trans hfr2⟩
      intro p' hp'
      have hmem := ih3 p' hp'
      rw [hev2] at hmem
      rcases List.mem_cons.mp hmem with h' | h'
      · cases h'
      · rcases List.mem_cons.mp h' with h'' | h''
        · cases h''
        · exact h''

/-! ### Prune-pass lemmas -/

theorem pruneWalk_noDelete (inSet : String → Bool) :
    ∀ (walked : List (String × List Nat)) (fs : FS),
      (∀ pc ∈ walked, inSet pc.1 = true) →
      pruneWalk inSet fs walked = (fs, Outcome.ok ())
  | [], _, _ => rfl
  | pc :: rest, fs, h => by
    have hin := h pc (List.mem_cons_self pc rest)
    have hstep : pruneWalk inSet fs (pc :: rest) = pruneWalk inSet fs rest := by
      conv_lhs => rw [pruneWalk]
      rw [if_pos hin]
    rw [hstep]
    exact pruneWalk_noDelete inSet rest fs (fun q hq => h q (List.mem_cons_of_mem pc hq))

theorem pruneDirs_noDelete (inSet : String → Bool) :
    ∀ (dirs : List String) (fs : FS),
      (∀ d ∈ dirs, ∀ pc ∈ fs.walkFiles d, inSet pc.1 = true) →
      pruneDirs inSet fs dirs = (fs, Outcome.ok ())
  | [], _, _ => rfl
  | d :: rest, fs, h => by
    have hw := pruneWalk_noDelete inSet (fs.walkFiles d) fs (h d (List.mem_cons_self d rest))
    have hstep : pruneDirs inSet fs (d :: rest) = pruneDirs inSet fs rest := by
      conv_lhs => rw [pruneDirs]
      rw [hw]
    rw [hstep]
    exact pruneDirs_noDelete inSet rest fs (fun e he => h e (List.mem_cons_of_mem d he))

theorem pruneWalk_preserves (inSet : String → Bool) (p : String) (hp : inSet p = true) :
    ∀ (walked : List (String × List Nat)) (fs : FS),
      (∀ pc ∈ walked, fs.dirs.contains pc.1 = false) →
      (pruneWalk inSet fs walked).fst.lookup p = fs.lookup p ∧
      (pruneWalk inSet fs walked).fst.dirs = fs.dirs ∧
      (∀ pc ∈ (pruneWalk inSet fs walked).fst.files, pc ∈ fs.files)
  | [], _, _ => ⟨rfl, rfl, fun _ hq => hq⟩
  | pc :: rest, fs, hd => by
    by_cases hin : inSet pc.1 = true
    · have hstep : pruneWalk inSet fs (pc :: rest) = pruneWalk inSet fs rest := by
        conv_lhs => rw [pruneWalk]
        rw [if_pos hin]
      rw [hstep]
      exact pruneWalk_preserves inSet p hp rest fs
        (fun q hq => hd q (List.mem_cons_of_mem pc hq))
    · have hin' : inSet pc.1 = false := Bool.eq_false_iff.mpr hin
      have hdir : fs.dirs.contains pc.1 = false := hd pc (List.mem_cons_self pc rest)
      have hdir' : ¬(fs.dirs.contains pc.1 = true) := by rw [hdir]; simp
      cases hrm : fs.removeFile pc.1 with
      | none =>
        have hdf : delete_file fs pc.1 = (fs, Outcome.err FileError.DeleteFailed) := by
          unfold delete_file
          rw [if_neg hdir', hrm]
        have hstep : pruneWalk inSet fs (pc :: rest) = (fs, Outcome.err FileError.DeleteFailed) := by
          conv_lhs => rw [pruneWalk]
          rw [if_neg hin, hdf]
        rw [hstep]
        exact ⟨rfl, rfl, fun _ hq => hq⟩
      | some fs1 =>
        obtain ⟨hq, hlknone, hdirs, hfc, hfr, hev, hmem⟩ := removeFile_spec fs fs1 pc.1 hrm
        have hdf : delete_file fs pc.1 = (fs1, Outcome.ok ()) := by
          unfold delete_file
          rw [if_neg hdir', hrm]
        have hstep : pruneWalk inSet fs (pc :: rest) = pruneWalk inSet fs1 rest := by
          conv_lhs => rw [pruneWalk]
          rw [if_neg hin, hdf]
        rw [hstep]
        have hd1 : ∀ q ∈ rest, fs1.dirs.contains q.1 = false := by
          intro q hq'
          rw [hdirs]
          exact hd q (List.mem_cons_of_mem pc hq')
        obtain ⟨ih1, ih2, ih3⟩ := pruneWalk_preserves inSet p hp rest fs1 hd1
        have hne : p ≠ pc.1 := by
          intro he
          rw [← he, hp] at hin'
          cases hin'
        exact ⟨ih1.trans (hq p hne), ih2.trans hdirs, fun q hq' => hmem q (ih3 q hq')⟩

theorem pruneDirs_preserves (inSet : String → Bool) (p : String) (hp : inSet p = true) :
    ∀ (dirs : List String) (fs : FS),
      (∀ pc ∈ fs.files, fs.dirs.contains pc.1 = false) →
      (pruneDirs inSet fs dirs).fst.lookup p = fs.lookup p ∧
      (pruneDirs inSet fs dirs).fst.dirs = fs.dirs ∧
      (∀ pc ∈ (pruneDirs inSet fs dirs).fst.files, pc ∈ fs.files)
  | [], _, _ => ⟨rfl, rfl, fun _ hq => hq⟩
  | d :: rest, fs, hfd => by
    obtain ⟨w1, w2, w3⟩ := pruneWalk_preserves inSet p hp (fs.walkFiles d) fs
      (fun pc h => hfd pc (List.mem_of_mem_filter h))
    rcases hw : pruneWalk inSet fs (fs.walkFiles d) with ⟨fs1, o⟩
    rw [hw] at w1 w2 w3
    cases o with
    | ok a =>
      have hstep : pruneDirs inSet fs (d :: rest) = pruneDirs inSet fs1 rest := by
        conv_lhs => rw [pruneDirs]
        rw [hw]
      rw [hstep]
      have hfd1 : ∀ pc ∈ fs1.files, fs1.dirs.contains pc.1 = false := by
        intro pc h
        rw [w2]
        exact hfd pc (w3 pc h)
      obtain ⟨i1, i2, i3⟩ := pruneDirs_preserves inSet p hp rest fs1 hfd1
      exact ⟨i1.trans w1, i2.trans w2, fun pc h => w3 pc (i3 pc h)⟩
    | err e =>
      have hstep : pruneDirs inSet fs (d :: rest) = (fs1, Outcome.err e) := by
        conv_lhs => rw [pruneDirs]
        rw [hw]
      rw [hstep]
      exact ⟨w1, w2, w3⟩
    | abort =>
      have hstep : pruneDirs inSet fs (d :: rest) = (fs1, Outcome.abort) := by
        conv_lhs => rw [pruneDirs]
        rw [hw]
      rw [hstep]
      exact ⟨w1, w2, w3⟩

theorem prunePass_noop (mgr : ModManager) (fs : FS)
    (h3 : ∀ d ∈ PRUNE_DIRECTORIES_INDEX, ∀ pc ∈ fs.walkFiles d,
      isInIndex mgr.files pc.1 = true)
    (h4 : ∀ d ∈ PRUNE_DIRECTORIES_OVERRIDES, ∀ pc ∈ fs.walkFiles d,
      isInOverrides mgr.overrides pc.1 = true) :
    prunePass mgr fs = (fs, Outcome.ok ()) := by
  unfold prunePass
  rw [pruneDirs_noDelete (isInIndex mgr.files) PRUNE_DIRECTORIES_INDEX fs h3]
  exact pruneDirs_noDelete (isInOverrides mgr.overrides) PRUNE_DIRECTORIES_OVERRIDES fs h4

theorem lookup_isSome_of_mem (fs : FS) (p : String) (c : List Nat)
    (h : (p, c) ∈ fs.files) : (fs.lookup p).isSome := by
  have hs : (fs.files.find? (fun pc => pc.1 == p)).isSome := by
    rw [List.find?_isSome]
    exact ⟨(p, c), h, by simp⟩
  unfold FS.lookup
  cases hf : fs.files.find? (fun pc => pc.1 == p) with
  | none => rw [hf] at hs; simp at hs
  | some x => simp

theorem prunePass_preserves (mgr : ModManager) (fs : FS) (p : String)
    (hfd : FilesNotDirs fs)
    (hi : isInIndex mgr.files p = true) (ho : isInOverrides mgr.overrides p = true) :
    (prunePass mgr fs).fst.lookup p = fs.lookup p := by
  obtain ⟨a1, a2, a3⟩ :=
    pruneDirs_preserves (isInIndex mgr.files) p hi PRUNE_DIRECTORIES_INDEX fs hfd
  rcases hr : pruneDirs (isInIndex mgr.files) fs PRUNE_DIRECTORIES_INDEX with ⟨fs1, o⟩
  rw [hr] at a1 a2 a3
  cases o with
  | ok a =>
    have hstep : prunePass mgr fs =
        pruneDirs (isInOverrides mgr.overrides) fs1 PRUNE_DIRECTORIES_OVERRIDES := by
      unfold prunePass
      rw [hr]
    rw [hstep]
    have hfd1 : ∀ pc ∈ fs1.files, fs1.dirs.contains pc.1 = false := by
      intro pc h
      rw [a2]
      exact hfd pc (a3 pc h)
    obtain ⟨b1, _, _⟩ :=
      pruneDirs_preserves (isInOverrides mgr.overrides) p ho PRUNE_DIRECTORIES_OVERRIDES fs1 hfd1
    exact b1.trans a1
  | err e =>
    have hstep : prunePass mgr fs = (fs1, Outcome.err e) := by
      unfold prunePass
      rw [hr]
    rw [hstep]
    exact a1
  | abort =>
    have hstep : prunePass mgr fs = (fs1, Outcome.abort) := by
      unfold prunePass
      rw [hr]
    rw [hstep]
    exact a1

/-! ### Claim theorems -/

/-- C1, counterexample: the claim "for every file path that is a member of
the filtered declared-file set or of the override map, the prune pass of
sync never deletes that path" is false.  `"mods/extra.jar"` is a key of
the override map, yet the prune pass walks the index-managed root `mods`,
tests membership only against the (empty) declared set, and deletes the
file that the override phase of the very same `sync` call just wrote:
the run ends `Ok` with the override absent from disk. -/
theorem c1_counterexample :
    let mgr : ModManager := ⟨[], [("mods/extra.jar", [1])], true⟩
    let r := mgr.sync (fun _ => []) (fun _ => []) (fun _ => SendResult.transportErr) emptyFS
    isInOverrides mgr.overrides "mods/extra.jar" = true ∧
    r.snd = Outcome.ok () ∧ r.fst.lookup "mods/extra.jar" = none := by decide

/-- C1, amended: pruning is a per-root membership test on the root's own
set.  On a well-formed filesystem (no path is both a file and a
directory), a walked file under an index-managed root is deleted only if
its path equals no entry of the filtered declared-file set, and a walked
file under an override-managed root is deleted only if its path equals no
key of the override map — stated as preservation: a member of the
respective set survives that root group's walk unchanged, and a path in
both sets survives the whole prune pass.  (A path in only one of the two
sets that lies under the other group's root is NOT protected, per the
counterexample.) -/
theorem c1_amended (mgr : ModManager) (fs : FS) (p : String) (hfd : FilesNotDirs fs) :
    (isInIndex mgr.files p = true →
      (pruneDirs (isInIndex mgr.files) fs PRUNE_DIRECTORIES_INDEX).fst.lookup p
        = fs.lookup p) ∧
    (isInOverrides mgr.overrides p = true →
      (pruneDirs (isInOverrides mgr.overrides) fs PRUNE_DIRECTORIES_OVERRIDES).fst.lookup p
        = fs.lookup p) ∧
    (isInIndex mgr.files p = true → isInOverrides mgr.overrides p = true →
      (prunePass mgr fs).fst.lookup p = fs.lookup p) :=
  ⟨fun hi => (pruneDirs_preserves (isInIndex mgr.files) p hi PRUNE_DIRECTORIES_INDEX fs hfd).1,
   fun ho =>
     (pruneDirs_preserves (isInOverrides mgr.overrides) p ho PRUNE_DIRECTORIES_OVERRIDES fs hfd).1,
   fun hi ho => prunePass_preserves mgr fs p hfd hi ho⟩

/-- C1, witness: the amended statement evaluated at a declared file
`mods/a.jar` that is also an override key, present on disk. -/
theorem c1_amended_witness :
    (pruneDirs (isInIndex (⟨[mf "mods/a.jar" []], [("config/x", [3]), ("mods/a.jar", [9])],
        true⟩ : ModManager).files)
      ⟨[("mods/a.jar", [9]), ("config/x", [3])], [], [], [], []⟩
      PRUNE_DIRECTORIES_INDEX).fst.lookup "mods/a.jar" = some [9] ∧
    (prunePass ⟨[mf "mods/a.jar" []], [("config/x", [3]), ("mods/a.jar", [9])], true⟩
      ⟨[("mods/a.jar", [9]), ("config/x", [3])], [], [], [], []⟩).fst.lookup "mods/a.jar"
        = some [9] := by
  have h := c1_amended ⟨[mf "mods/a.jar" []], [("config/x", [3]), ("mods/a.jar", [9])], true⟩
    ⟨[("mods/a.jar", [9]), ("config/x", [3])], [], [], [], []⟩ "mods/a.jar" (fun _ _ => rfl)
  exact ⟨(h.1 (by decide)).trans (by decide), (h.2.2 (by decide) (by decide)).trans (by decide)⟩

/-- C2, counterexample: the claim that a failed mirror's partial output is
discarded and that total exhaustion "leaves no partial file at the target
path" is false.  A single mirror delivers `[1,2,3]` and then the body
stream fails; `download_file` returns `AllDownloadsFailed`, yet the bytes
remain on disk at the target path (nothing deletes them; truncation would
only happen if a later attempt reached `File::create`). -/
theorem c2_counterexample :
    (download_file (fun _ => SendResult.response 200 [1, 2, 3] true) emptyFS
      (mf "mods/a.jar" ["u"])).snd = Outcome.err FileError.AllDownloadsFailed ∧
    (download_file (fun _ => SendResult.response 200 [1, 2, 3] true) emptyFS
      (mf "mods/a.jar" ["u"])).fst.lookup "mods/a.jar" = some [1, 2, 3] := by decide

/-- C2, amended: partial output of a failed attempt is discarded only when
a later attempt reaches `File::create` (which truncates).  When every
candidate URL of a declared file fails, the run terminates with
`AllDownloadsFailed`, and the target path then holds either its previous
content or the bytes delivered by one of the failed attempts — i.e. a
partial file may be left behind. -/
theorem c2_amended (net : String → SendResult) (fs : FS) (f : MRFile)
    (h : ∀ u ∈ f.downloads, tryFails net fs.failCreate u f.path = true) :
    (download_file net fs f).snd = Outcome.err FileError.AllDownloadsFailed ∧
    ((download_file net fs f).fst.lookup f.path = fs.lookup f.path ∨
      ∃ u ∈ f.downloads, ∃ st deliv, net u = SendResult.response st deliv true ∧
        (download_file net fs f).fst.lookup f.path = some deliv) := by
  obtain ⟨hef, hec, her, hee⟩ := ensureParent_fields fs f.path
  have h' : ∀ u ∈ f.downloads,
      tryFails net (ensureParent fs f.path).failCreate u f.path = true := by
    intro u hu
    rw [hec]
    exact h u hu
  obtain ⟨e1, e2, e3, e4⟩ :=
    downloadLoop_exhaust net f.path f.downloads (ensureParent fs f.path) h'
  unfold download_file
  refine ⟨e1, ?_⟩
  rcases e3 with hl | ⟨u, hu, st, deliv, hn, hl⟩
  · exact Or.inl (hl.trans (lookup_congr_files _ fs f.path hef))
  · exact Or.inr ⟨u, hu, st, deliv, hn, hl⟩

/-- C2, witness: the amended statement at a single always-transport-failing
mirror. -/
theorem c2_amended_witness :
    (download_file (fun _ => SendResult.transportErr) emptyFS (mf "mods/a.jar" ["u"])).snd
      = Outcome.err FileError.AllDownloadsFailed :=
  (c2_amended (fun _ => SendResult.transportErr) emptyFS (mf "mods/a.jar" ["u"]) (by decide)).1

/-- C3, counterexample: the claim that an invalid local file is deleted
before the fetch phase "in every such case, not only when the subsequent
fetch succeeds" is false.  With the identity digest functions, the local
content `[9]` does not match the declared hashes, and every mirror fails
at `send()`: after `sync` the stale invalid file is still on disk,
untouched — the engine never deletes it (there is no `remove_file` in the
validate-fetch path; only `File::create` inside a fetch attempt would
truncate it). -/
theorem c3_counterexample :
    let mgr : ModManager := ⟨[mf "mods/a.jar" ["u"]], [], false⟩
    let r := mgr.sync (fun l => l) (fun l => l) (fun _ => SendResult.transportErr)
      ⟨[("mods/a.jar", [9])], [], [], [], []⟩
    r.snd = Outcome.err FileError.AllDownloadsFailed ∧
    r.fst.lookup "mods/a.jar" = some [9] := by decide

/-- C3, amended: an invalid local file is never deleted; it is
truncated-and-overwritten by the first fetch attempt that reaches
`File::create`.  When the first mirror responds successfully, the per-file
step succeeds, the file ends holding exactly the fetched bytes, and no
delete of any path is performed anywhere in the repair path. -/
theorem c3_amended (sha1D sha512D : List Nat → List Nat) (net : String → SendResult)
    (fs : FS) (f : MRFile) (content : List Nat) (u : String) (rest : List String)
    (st : Nat) (body : List Nat)
    (hc : fs.lookup f.path = some content)
    (hnr : fs.failRead.contains f.path = false)
    (hinv : file_is_valid sha1D sha512D content f.hashes = false)
    (hdl : f.downloads = u :: rest)
    (hn : net u = SendResult.response st body false)
    (hfc : fs.failCreate.contains f.path = false) :
    (syncFile sha1D sha512D net fs f).snd = Outcome.ok () ∧
    (syncFile sha1D sha512D net fs f).fst.lookup f.path = some body ∧
    (∀ p', Ev.delete p' ∈ (syncFile sha1D sha512D net fs f).fst.events →
      Ev.delete p' ∈ fs.events) := by
  have hnr' : f.path ∉ fs.failRead := by simpa using hnr
  have hstep : syncFile sha1D sha512D net fs f = download_file net fs f := by
    unfold syncFile
    rw [hc]
    simp [hnr', hinv]
  obtain ⟨hef, hec, her, hee⟩ := ensureParent_fields fs f.path
  have hfc0 : (ensureParent fs f.path).failCreate.contains f.path = false := by
    rw [hec]
    exact hfc
  obtain ⟨fs2, he, hl, hlq, hfc2, hfr2, hd2, hev2⟩ :=
    try_success net (ensureParent fs f.path) u f.path st body hn hfc0
  have hdla : download_file net fs f = (fs2, Outcome.ok ()) := by
    unfold download_file
    rw [hdl]
    exact downloadLoop_first_ok net _ fs2 u f.path rest he
  rw [hstep, hdla]
  refine ⟨rfl, hl, ?_⟩
  intro p' hp'
  rw [hev2, hee] at hp'
  rcases List.mem_cons.mp hp' with h' | h'
  · cases h'
  · rcases List.mem_cons.mp h' with h'' | h''
    · cases h''
    · exact h''

/-- C3, witness: the amended statement at an invalid local file `[9]` whose
single mirror serves `[7]`: the step succeeds and the file holds `[7]`. -/
theorem c3_amended_witness :
    (syncFile (fun l => l) (fun l => l) (fun _ => SendResult.response 200 [7] false)
      ⟨[("mods/a.jar", [9])], [], [], [], []⟩ (mf "mods/a.jar" ["u"])).snd = Outcome.ok () ∧
    (syncFile (fun l => l) (fun l => l) (fun _ => SendResult.response 200 [7] false)
      ⟨[("mods/a.jar", [9])], [], [], [], []⟩ (mf "mods/a.jar" ["u"])).fst.lookup "mods/a.jar"
      = some [7] := by
  have h := c3_amended (fun l => l) (fun l => l) (fun _ => SendResult.response 200 [7] false)
    ⟨[("mods/a.jar", [9])], [], [], [], []⟩ (mf "mods/a.jar" ["u"]) [9] "u" [] 200 [7]
    (by decide) (by decide) (by decide) (by decide) (by decide) (by decide)
  exact ⟨h.1, h.2.1⟩

/-- C4, counterexample: the claim that a single mirror fetch "returns a
failure for every non-success HTTP status" is false.  The source never
consults `response.status()` and reqwest's `send()` does not fail on
non-2xx: a 404 response whose body reads fine is written to the
destination and `try_download_file` returns `Ok`. -/
theorem c4_counterexample :
    ¬(200 ≤ 404 ∧ 404 < 300) ∧
    (try_download_file (fun _ => SendResult.response 404 [7] false) emptyFS
      "u" "mods/a.jar").snd = Outcome.ok () ∧
    (try_download_file (fun _ => SendResult.response 404 [7] false) emptyFS
      "u" "mods/a.jar").fst.lookup "mods/a.jar" = some [7] := by decide

/-- C4, amended: a single mirror fetch fails on every transport error, on a
destination-create failure, and on a body-read failure; it succeeds if and
only if a response was received (of any HTTP status — the status is never
consulted) whose body stream completed and whose bytes were written to the
destination, which then holds exactly the delivered body. -/
theorem c4_amended (net : String → SendResult) (fs : FS) (u path : String) :
    ((try_download_file net fs u path).snd = Outcome.ok () ↔
      ∃ st body, net u = SendResult.response st body false ∧
        fs.failCreate.contains path = false) ∧
    (∀ st body, net u = SendResult.response st body false →
      fs.failCreate.contains path = false →
      (try_download_file net fs u path).fst.lookup path = some body) := by
  constructor
  · constructor
    · intro hok
      unfold try_download_file at hok
      cases hn : net u with
      | transportErr =>
        rw [hn] at hok
        simp at hok
      | response st body rf =>
        rw [hn] at hok
        cases hcf : fs.createFile path with
        | none =>
          rw [hcf] at hok
          simp at hok
        | some fs1 =>
          rw [hcf] at hok
          cases rf with
          | true => simp at hok
          | false =>
            refine ⟨st, body, rfl, ?_⟩
            by_cases hfc : fs.failCreate.contains path = true
            · have hnone := (createFile_none_iff fs path).mpr hfc
              rw [hnone] at hcf
              cases hcf
            · exact Bool.eq_false_iff.mpr hfc
    · rintro ⟨st, body, hn, hfc⟩
      obtain ⟨fs2, he, _⟩ := try_success net fs u path st body hn hfc
      rw [he]
  · intro st body hn hfc
    obtain ⟨fs2, he, hl, _⟩ := try_success net fs u path st body hn hfc
    rw [he]
    exact hl

/-- C4, witness: the amended statement at a 200 response delivering `[7]`
with no injected faults. -/
theorem c4_amended_witness :
    (try_download_file (fun _ => SendResult.response 200 [7] false) emptyFS
      "u" "mods/a.jar").snd = Outcome.ok () ∧
    (try_download_file (fun _ => SendResult.response 200 [7] false) emptyFS
      "u" "mods/a.jar").fst.lookup "mods/a.jar" = some [7] := by
  have h := c4_amended (fun _ => SendResult.response 200 [7] false) emptyFS "u" "mods/a.jar"
  exact ⟨h.1.mpr ⟨200, [7], rfl, rfl⟩, h.2 200 [7] rfl rfl⟩

/-- C5, confirmed: content validation returns true iff both the SHA-1 and
the SHA-512 digest of the full buffer equal, byte-for-byte, the
corresponding expected digest of the declared file; a buffer matching
exactly one of the two digests is classified invalid.  (The digest
functions of the external `sha1`/`sha2` crates are abstracted as
parameters; the property holds for every choice.) -/
theorem c5_validity_requires_both (sha1D sha512D : List Nat → List Nat)
    (data : List Nat) (h : FileHashes) :
    (file_is_valid sha1D sha512D data h = true ↔
      (sha1D data = h.sha1 ∧ sha512D data = h.sha512)) ∧
    (((sha1D data = h.sha1 ∧ sha512D data ≠ h.sha512) ∨
      (sha1D data ≠ h.sha1 ∧ sha512D data = h.sha512)) →
      file_is_valid sha1D sha512D data h = false) := by
  constructor
  · simp [file_is_valid, check_sha1, check_sha512]
  · rintro (⟨h1, h2⟩ | ⟨h1, h2⟩) <;>
      simp [file_is_valid, check_sha1, check_sha512, h1, h2]

/-- C5, witness: a buffer whose SHA-1 matches but whose SHA-512 differs is
invalid; a buffer matching both is valid. -/
theorem c5_witness :
    file_is_valid (fun _ => [1]) (fun _ => [9]) [] ⟨[1], [2]⟩ = false ∧
    file_is_valid (fun _ => [1]) (fun _ => [2]) [] ⟨[1], [2]⟩ = true := by
  refine ⟨(c5_validity_requires_both (fun _ => [1]) (fun _ => [9]) [] ⟨[1], [2]⟩).2
    (Or.inl ⟨rfl, by decide⟩), ?_⟩
  exact (c5_validity_requires_both (fun _ => [1]) (fun _ => [2]) [] ⟨[1], [2]⟩).1.mpr
    ⟨rfl, rfl⟩

/-- C6, confirmed: the run is fail-fast.  (i) A failed mirror attempt is
swallowed: the loop just continues with the next URL on the attempt's
resulting filesystem; (ii) exhausting every mirror of one declared file
yields exactly `AllDownloadsFailed`; (iii) the first declared file whose
per-file step errors stops the declared-files loop with that error,
processing no later file; (iv) an error from the declared-files phase is
returned by `sync` as-is, on the filesystem as the failing phase left it —
no override write and no prune action happens after that point. -/
theorem c6_fail_fast (sha1D sha512D : List Nat → List Nat) (net : String → SendResult) :
    (∀ (fs fs1 : FS) (u path : String) (rest : List String) (e : FileError),
      try_download_file net fs u path = (fs1, Outcome.err e) →
      downloadLoop net fs (u :: rest) path = downloadLoop net fs1 rest path) ∧
    (∀ (fs : FS) (f : MRFile),
      (∀ u ∈ f.downloads, tryFails net fs.failCreate u f.path = true) →
      (download_file net fs f).snd = Outcome.err FileError.AllDownloadsFailed) ∧
    (∀ (fs fs1 : FS) (f : MRFile) (more : List MRFile) (e : FileError),
      syncFile sha1D sha512D net fs f = (fs1, Outcome.err e) →
      syncFiles sha1D sha512D net fs (f :: more) = (fs1, Outcome.err e)) ∧
    (∀ (mgr : ModManager) (fs fs1 : FS) (e : FileError),
      syncFiles sha1D sha512D net fs mgr.files = (fs1, Outcome.err e) →
      mgr.sync sha1D sha512D net fs = (fs1, Outcome.err e)) := by
  refine ⟨?_, ?_, ?_, ?_⟩
  · intro fs fs1 u path rest e h
    exact downloadLoop_swallow net fs fs1 u path rest e h
  · intro fs f h
    obtain ⟨hef, hec, her, hee⟩ := ensureParent_fields fs f.path
    have h' : ∀ u ∈ f.downloads,
        tryFails net (ensureParent fs f.path).failCreate u f.path = true := by
      intro u hu
      rw [hec]
      exact h u hu
    unfold download_file
    exact (downloadLoop_exhaust net f.path f.downloads (ensureParent fs f.path) h').1
  · intro fs fs1 f more e h
    exact syncFiles_stop sha1D sha512D net fs fs1 f more _ h
      (fun a ha => Outcome.noConfusion ha)
  · intro mgr fs fs1 e h
    exact sync_stops_at_files mgr sha1D sha512D net fs fs1 _ h
      (fun a ha => Outcome.noConfusion ha)

/-- C6, witness: all four parts evaluated on a one-file manifest with a
single always-failing mirror, an override and prune mode on: the loop
swallows the attempt, the entry reports `AllDownloadsFailed`, the second
declared file is never processed, and `sync` returns with the failing
phase's filesystem (no override written, nothing pruned). -/
theorem c6_witness :
    downloadLoop (fun _ => SendResult.transportErr) emptyFS ["u"] "mods/a.jar"
      = downloadLoop (fun _ => SendResult.transportErr) emptyFS [] "mods/a.jar" ∧
    (download_file (fun _ => SendResult.transportErr) emptyFS (mf "mods/a.jar" ["u"])).snd
      = Outcome.err FileError.AllDownloadsFailed ∧
    syncFiles (fun l => l) (fun l => l) (fun _ => SendResult.transportErr) emptyFS
      [mf "mods/a.jar" ["u"], mf "mods/b.jar" ["v"]]
      = (⟨[], ["mods"], [], [], []⟩, Outcome.err FileError.AllDownloadsFailed) ∧
    (⟨[mf "mods/a.jar" ["u"]], [("config/x", [5])], true⟩ : ModManager).sync
      (fun l => l) (fun l => l) (fun _ => SendResult.transportErr) emptyFS
      = (⟨[], ["mods"], [], [], []⟩, Outcome.err FileError.AllDownloadsFailed) := by
  have h := c6_fail_fast (fun l => l) (fun l => l) (fun _ => SendResult.transportErr)
  exact ⟨h.1 emptyFS emptyFS "u" "mods/a.jar" [] FileError.DownloadFailed (by decide),
    h.2.1 emptyFS (mf "mods/a.jar" ["u"]) (by decide),
    h.2.2.1 emptyFS ⟨[], ["mods"], [], [], []⟩ (mf "mods/a.jar" ["u"])
      [mf "mods/b.jar" ["v"]] FileError.AllDownloadsFailed (by decide),
    h.2.2.2 ⟨[mf "mods/a.jar" ["u"]], [("config/x", [5])], true⟩ emptyFS
      ⟨[], ["mods"], [], [], []⟩ FileError.AllDownloadsFailed (by decide)⟩

/-- C7, confirmed: the environment filter applied at construction keeps
exactly the declared files whose `env` is absent or whose `server`
requirement is not `Unsupported`, each kept entry unchanged; a file with
`server: unsupported` is not in the engine's file set (which is the only
set `sync` iterates and the membership set used by index-root pruning),
and when every declared entry at a path is server-unsupported that path is
not in the prune membership test; overrides and the prune flag are stored
unchanged. -/
theorem c7_env_filter (idx : MRIndex) (ovs : List (String × List Nat)) (pr : Bool)
    (f : MRFile) (p : String) :
    (f ∈ (ModManager.new idx ovs pr).files ↔
      f ∈ idx.files ∧ (f.env = none ∨
        ∃ e, f.env = some e ∧ e.server ≠ Requirement.Unsupported)) ∧
    (∀ e, f.env = some e → e.server = Requirement.Unsupported →
      f ∉ (ModManager.new idx ovs pr).files) ∧
    ((∀ g ∈ idx.files, g.path = p →
        ∃ e, g.env = some e ∧ e.server = Requirement.Unsupported) →
      isInIndex (ModManager.new idx ovs pr).files p = false) ∧
    (ModManager.new idx ovs pr).overrides = ovs ∧
    (ModManager.new idx ovs pr).prune = pr := by
  refine ⟨?_, ?_, ?_, rfl, rfl⟩
  · simp only [ModManager.new]
    rw [List.mem_filter]
    apply and_congr_right
    intro _
    cases henv : f.env with
    | none => simp [henv]
    | some e => simp [henv, bne_iff_ne]
  · intro e henv hs hmem
    simp only [ModManager.new] at hmem
    rw [List.mem_filter] at hmem
    rcases hmem with ⟨_, hpred⟩
    rw [henv] at hpred
    simp [hs] at hpred
  · intro hall
    simp only [ModManager.new, isInIndex]
    rw [List.any_eq_false]
    intro g hg
    rw [List.mem_filter] at hg
    rcases hg with ⟨hgi, hpred⟩
    intro hbeq
    have hgp : g.path = p := by simpa using hbeq
    obtain ⟨e, henv, hs⟩ := hall g hgi hgp
    rw [henv] at hpred
    simp [hs] at hpred

/-- C7, witness: a declared file marked `server: unsupported` is filtered
out at construction and its path fails the prune membership test. -/
theorem c7_witness :
    (⟨"mods/u.jar", ⟨[1], [2]⟩, some ⟨Requirement.Required, Requirement.Unsupported⟩,
        ["u"], 0⟩ : MRFile) ∉
      (ModManager.new ⟨"g", 1, "v", "n",
        [⟨"mods/u.jar", ⟨[1], [2]⟩, some ⟨Requirement.Required, Requirement.Unsupported⟩,
          ["u"], 0⟩]⟩ [] true).files ∧
    isInIndex (ModManager.new ⟨"g", 1, "v", "n",
      [⟨"mods/u.jar", ⟨[1], [2]⟩, some ⟨Requirement.Required, Requirement.Unsupported⟩,
        ["u"], 0⟩]⟩ [] true).files "mods/u.jar" = false := by
  have h := c7_env_filter ⟨"g", 1, "v", "n",
    [⟨"mods/u.jar", ⟨[1], [2]⟩, some ⟨Requirement.Required, Requirement.Unsupported⟩,
      ["u"], 0⟩]⟩ [] true
    ⟨"mods/u.jar", ⟨[1], [2]⟩, some ⟨Requirement.Required, Requirement.Unsupported⟩,
      ["u"], 0⟩ "mods/u.jar"
  refine ⟨h.2.1 ⟨Requirement.Required, Requirement.Unsupported⟩ rfl rfl, h.2.2.1 ?_⟩
  intro g hg hp
  simp at hg
  subst hg
  exact ⟨⟨Requirement.Required, Requirement.Unsupported⟩, rfl, rfl⟩

theorem sync_phases (mgr : ModManager) (sha1D sha512D : List Nat → List Nat)
    (net : String → SendResult) (fs fs1 fs2 : FS)
    (hf : syncFiles sha1D sha512D net fs mgr.files = (fs1, Outcome.ok ()))
    (ho : syncOverrides fs1 mgr.overrides = (fs2, Outcome.ok ())) :
    mgr.sync sha1D sha512D net fs =
      if mgr.prune then prunePass mgr fs2 else (fs2, Outcome.ok ()) := by
  unfold ModManager.sync
  simp only [hf, ho]

/-- C8, counterexample: the claim that a second sync run "performs zero
filesystem writes and zero deletes ... no write of any kind (including
override writes) occurs" is false.  Overrides are materialized
unconditionally on every run: after a first sync of a manifest with one
override, the second run on the resulting filesystem performs a
`File::create` and a `write_all` for that override again (visible here as
two fresh trace events). -/
theorem c8_counterexample :
    let mgr : ModManager := ⟨[], [("config/x", [1])], false⟩
    let fs1 := (mgr.sync (fun l => l) (fun l => l) (fun _ => SendResult.transportErr)
      emptyFS).fst
    let r := mgr.sync (fun l => l) (fun l => l) (fun _ => SendResult.transportErr) fs1
    r.snd = Outcome.ok () ∧
    r.fst.events = Ev.write "config/x" [1] :: Ev.create "config/x" :: fs1.events := by decide

/-- C8, amended: on a filesystem where every declared file is already
valid, every override is already on disk with its declared content, and
every walked file under a managed root belongs to the corresponding set
(the state a successful sync leaves behind when overrides live under
their own roots), a second `sync` run succeeds, re-fetches nothing,
deletes nothing, and leaves the file map unchanged: the only filesystem
activity is the unconditional override rewrite, each write putting back
the content the path already holds. -/
theorem c8_amended (sha1D sha512D : List Nat → List Nat) (net : String → SendResult)
    (mgr : ModManager) (fs : FS)
    (h1 : ∀ f ∈ mgr.files, ∃ c, fs.lookup f.path = some c ∧
      fs.failRead.contains f.path = false ∧ file_is_valid sha1D sha512D c f.hashes = true)
    (h2 : ∀ pc ∈ mgr.overrides, fs.lookup pc.1 = some pc.2 ∧
      fs.failCreate.contains pc.1 = false)
    (h3 : ∀ d ∈ PRUNE_DIRECTORIES_INDEX, ∀ pc ∈ fs.walkFiles d,
      isInIndex mgr.files pc.1 = true)
    (h4 : ∀ d ∈ PRUNE_DIRECTORIES_OVERRIDES, ∀ pc ∈ fs.walkFiles d,
      isInOverrides mgr.overrides pc.1 = true) :
    (mgr.sync sha1D sha512D net fs).snd = Outcome.ok () ∧
    (∀ q, (mgr.sync sha1D sha512D net fs).fst.lookup q = fs.lookup q) ∧
    (∀ p', Ev.delete p' ∈ (mgr.sync sha1D sha512D net fs).fst.events →
      Ev.delete p' ∈ fs.events) := by
  have hfiles := syncFiles_all_valid sha1D sha512D net mgr.files fs h1
  obtain ⟨o1, o2, o3, o4, o5⟩ := syncOverrides_rewrite mgr.overrides fs h2
  rcases ho : syncOverrides fs mgr.overrides with ⟨fs2, oo⟩
  rw [ho] at o1 o2 o3 o4 o5
  have o1' : oo = Outcome.ok () := o1
  subst o1'
  have o2' : ∀ q, fs2.lookup q = fs.lookup q := o2
  have o3' : ∀ p', Ev.delete p' ∈ fs2.events → Ev.delete p' ∈ fs.events := o3
  have hmemT : ∀ (d : String) (inSet : String → Bool),
      (∀ pc ∈ fs.walkFiles d, inSet pc.1 = true) →
      ∀ pc ∈ fs2.walkFiles d, inSet pc.1 = true := by
    intro d inSet hset pc hpc
    have hpc' : pc ∈ fs2.files.filter (fun x => isUnder d x.1) := hpc
    have hpcf : pc ∈ fs2.files := List.mem_of_mem_filter hpc'
    have hunder : isUnder d pc.1 = true := by simpa using List.of_mem_filter hpc'
    have hsome : (fs2.lookup pc.1).isSome := lookup_isSome_of_mem fs2 pc.1 pc.2 hpcf
    rw [o2' pc.1] at hsome
    obtain ⟨c', hc'⟩ := Option.isSome_iff_exists.mp hsome
    have hmem' := mem_of_lookup_eq_some fs pc.1 c' hc'
    have hwf : (pc.1, c') ∈ fs.walkFiles d := by
      unfold FS.walkFiles
      exact List.mem_filter.mpr ⟨hmem', by simpa using hunder⟩
    exact hset (pc.1, c') hwf
  have hprune := prunePass_noop mgr fs2
    (fun d hd => hmemT d _ (h3 d hd)) (fun d hd => hmemT d _ (h4 d hd))
  have hres : mgr.sync sha1D sha512D net fs = (fs2, Outcome.ok ()) := by
    rw [sync_phases mgr sha1D sha512D net fs fs fs2 hfiles ho]
    cases hpr : mgr.prune
    · simp
    · simp [hprune]
  rw [hres]
  exact ⟨rfl, fun q => o2' q, fun p' hp' => o3' p' hp'⟩

/-- C8, witness: the amended statement on a one-file, one-override,
prune-enabled manifest whose filesystem is already in the synced state:
the run succeeds and the override path still holds its content. -/
theorem c8_amended_witness :
    ((⟨[mf "mods/a.jar" ["u"]], [("config/x", [3])], true⟩ : ModManager).sync
      (fun _ => [1]) (fun _ => [2]) (fun _ => SendResult.transportErr)
      ⟨[("mods/a.jar", [9]), ("config/x", [3])], [], [], [], []⟩).snd = Outcome.ok () ∧
    ((⟨[mf "mods/a.jar" ["u"]], [("config/x", [3])], true⟩ : ModManager).sync
      (fun _ => [1]) (fun _ => [2]) (fun _ => SendResult.transportErr)
      ⟨[("mods/a.jar", [9]), ("config/x", [3])], [], [], [], []⟩).fst.lookup "config/x"
      = some [3] := by
  have h := c8_amended (fun _ => [1]) (fun _ => [2]) (fun _ => SendResult.transportErr)
    ⟨[mf "mods/a.jar" ["u"]], [("config/x", [3])], true⟩
    ⟨[("mods/a.jar", [9]), ("config/x", [3])], [], [], [], []⟩
    (by intro f hf; simp at hf; subst hf; exact ⟨[9], by decide, by decide, by decide⟩)
    (by intro pc hpc; simp at hpc; subst hpc; exact ⟨by decide, by decide⟩)
    (by decide) (by decide)
  exact ⟨h.1, (h.2.1 "config/x").trans (by decide)⟩

/-- C9, counterexample: the claim that a read failure on an existing local
file during VALIDATE "surfaces to the caller as the IOError result value
of sync" is false.  `file_is_valid` calls `read_to_end(..).unwrap()`: on
a read error the process panics (modeled as `Outcome.abort`), and `sync`
never returns `IOError` for it. -/
theorem c9_counterexample :
    let mgr : ModManager := ⟨[mf "mods/a.jar" ["u"]], [], false⟩
    let r := mgr.sync (fun l => l) (fun l => l) (fun _ => SendResult.transportErr)
      ⟨[("mods/a.jar", [9])], [], [], ["mods/a.jar"], []⟩
    r.snd = Outcome.abort ∧ r.snd ≠ Outcome.err FileError.IOError := by decide

/-- C9, amended: a failure to read an existing local file during the
VALIDATE step aborts the process (a panic from
`read_to_end(..).unwrap()`), with no `FileError` result ever produced —
it is neither a retry nor `IOError`; a failure to open the file, by
contrast, is silently treated as needs-download and goes straight to the
fetch phase. -/
theorem c9_amended (sha1D sha512D : List Nat → List Nat) (net : String → SendResult)
    (mgr : ModManager) (fs fs0 : FS) (f : MRFile) (rest : List MRFile)
    (content : List Nat)
    (hfiles : mgr.files = f :: rest)
    (hlk : fs.lookup f.path = some content)
    (hfr : fs.failRead.contains f.path = true)
    (hnone : fs0.lookup f.path = none) :
    mgr.sync sha1D sha512D net fs = (fs, Outcome.abort) ∧
    syncFile sha1D sha512D net fs0 f = download_file net fs0 f := by
  have hstep : syncFile sha1D sha512D net fs f = (fs, Outcome.abort) := by
    have hfr' : f.path ∈ fs.failRead := by simpa using hfr
    unfold syncFile
    rw [hlk]
    simp [hfr']
  have hsf : syncFiles sha1D sha512D net fs mgr.files = (fs, Outcome.abort) := by
    rw [hfiles]
    exact syncFiles_stop sha1D sha512D net fs fs f rest _ hstep
      (fun a ha => Outcome.noConfusion ha)
  refine ⟨sync_stops_at_files mgr sha1D sha512D net fs fs _ hsf
    (fun a ha => Outcome.noConfusion ha), ?_⟩
  unfold syncFile
  rw [hnone]

/-- C9, witness: the amended statement with an injected read fault on the
one declared file (sync aborts with the filesystem untouched), and with
the file absent (the step equals the fetch phase). -/
theorem c9_amended_witness :
    (⟨[mf "mods/a.jar" ["u"]], [], false⟩ : ModManager).sync (fun l => l) (fun l => l)
      (fun _ => SendResult.transportErr) ⟨[("mods/a.jar", [9])], [], [], ["mods/a.jar"], []⟩
      = (⟨[("mods/a.jar", [9])], [], [], ["mods/a.jar"], []⟩, Outcome.abort) ∧
    syncFile (fun l => l) (fun l => l) (fun _ => SendResult.transportErr) emptyFS
      (mf "mods/a.jar" ["u"])
      = download_file (fun _ => SendResult.transportErr) emptyFS (mf "mods/a.jar" ["u"]) :=
  c9_amended (fun l => l) (fun l => l) (fun _ => SendResult.transportErr)
    ⟨[mf "mods/a.jar" ["u"]], [], false⟩
    ⟨[("mods/a.jar", [9])], [], [], ["mods/a.jar"], []⟩ emptyFS
    (mf "mods/a.jar" ["u"]) [] [9] rfl (by decide) (by decide) (by decide)

/-- C10, confirmed: for a declared file whose downloads list is empty,
`download_file` terminates and returns `AllDownloadsFailed` after the
parent-directory creation step, attempting no fetch: the file map, the
event trace, and the content at the target path are all unchanged. -/
theorem c10_empty_downloads (net : String → SendResult) (fs : FS) (f : MRFile)
    (h : f.downloads = []) :
    download_file net fs f =
      (ensureParent fs f.path, Outcome.err FileError.AllDownloadsFailed) ∧
    (ensureParent fs f.path).files = fs.files ∧
    (ensureParent fs f.path).events = fs.events ∧
    (ensureParent fs f.path).lookup f.path = fs.lookup f.path := by
  obtain ⟨hef, hec, her, hee⟩ := ensureParent_fields fs f.path
  refine ⟨?_, hef, hee, lookup_congr_files _ fs f.path hef⟩
  unfold download_file
  rw [h]
  rfl

/-- C10, witness: the statement evaluated at a declared file with an empty
mirror list on the empty filesystem. -/
theorem c10_witness :
    download_file (fun _ => SendResult.transportErr) emptyFS (mf "mods/a.jar" [])
      = (ensureParent emptyFS "mods/a.jar", Outcome.err FileError.AllDownloadsFailed) ∧
    (ensureParent emptyFS "mods/a.jar").files = emptyFS.files := by
  have h := c10_empty_downloads (fun _ => SendResult.transportErr) emptyFS
    (mf "mods/a.jar" []) rfl
  exact ⟨h.1, h.2.1⟩

end ObserveRs
